import Mathlib

/-!
Verification of the traffic-intersection simulation (`traffic.py`).

The embedding below mirrors the Python source:
* `SignalPhase`, `TrafficLight` and its `update` / private `__advance_state`
  become plain Lean structures and functions over `Int` (Python integers);
* `IntersectionController` keeps its fields; the dict `self.lights` becomes
  an insertion-ordered association list with Python-dict update semantics;
* operations that can raise (`IndexError`, `KeyError`, `ZeroDivisionError`)
  return `Option`, with `none` standing for a raised exception.
-/

inductive LightState where
  | RED
  | GREEN
  | YELLOW
deriving DecidableEq, Repr

/-- `SignalPhase.__init__` stores the two durations and sets `red_time = 0`. -/
structure SignalPhase where
  green_time : Int
  yellow_time : Int
  red_time : Int
deriving DecidableEq, Repr

/-- `SignalPhase(green_time, yellow_time)` — no validation, `red_time = 0`. -/
def SignalPhase.init (green_time yellow_time : Int) : SignalPhase :=
  { green_time := green_time, yellow_time := yellow_time, red_time := 0 }

/-- `TrafficLight`: a phase reference, a state and a countdown timer. -/
structure TrafficLight where
  signal_phase : SignalPhase
  state : LightState
  timer : Int
deriving DecidableEq, Repr

/-- `TrafficLight.__init__`: starts `RED` with `timer = signal_phase.red_time`. -/
def TrafficLight.init (p : SignalPhase) : TrafficLight :=
  { signal_phase := p, state := LightState.RED, timer := p.red_time }

/-- `TrafficLight.__advance_state`: cyclic RED → GREEN → YELLOW → RED,
resetting the timer to the newly entered state's configured duration. -/
def TrafficLight.advance_state (l : TrafficLight) : TrafficLight :=
  match l.state with
  | LightState.RED =>
      { l with state := LightState.GREEN, timer := l.signal_phase.green_time }
  | LightState.GREEN =>
      { l with state := LightState.YELLOW, timer := l.signal_phase.yellow_time }
  | LightState.YELLOW =>
      { l with state := LightState.RED, timer := l.signal_phase.red_time }

/-- `TrafficLight.update`: decrement the timer; if it became negative,
advance to the next state. -/
def TrafficLight.update (l : TrafficLight) : TrafficLight :=
  let l' := { l with timer := l.timer - 1 }
  if l'.timer < 0 then l'.advance_state else l'

/-- The controller's force-to-red branch (`traffic.py` lines 60-61): write the
`state` field only, and only when the light is not already `RED`. -/
def forceRed (l : TrafficLight) : TrafficLight :=
  if l.state ≠ LightState.RED then { l with state := LightState.RED } else l

abbrev LaneKey := String × String

/-- `IntersectionController.__init__` fields (`simulate` and `print_status`
are excluded I/O shells; `timer` is the display-only elapsed counter). -/
structure IntersectionController where
  all_red_time : Int
  time_in_all_red : Int
  timer : Int
  lights : List (LaneKey × TrafficLight)
  current_group : Nat
  current_group_phase : List (List LaneKey)
deriving DecidableEq, Repr

/-- `IntersectionController(all_red_time=4)`. -/
def IntersectionController.init (all_red_time : Int) : IntersectionController :=
  { all_red_time := all_red_time, time_in_all_red := 0, timer := 0,
    lights := [], current_group := 0, current_group_phase := [] }

/-- Python-dict assignment `d[k] = v`: replace in place if the key is
present, otherwise append at the end (insertion order). -/
def dictInsert (ls : List (LaneKey × TrafficLight)) (k : LaneKey)
    (v : TrafficLight) : List (LaneKey × TrafficLight) :=
  match ls with
  | [] => [(k, v)]
  | (k', v') :: rest =>
      if k' = k then (k, v) :: rest else (k', v') :: dictInsert rest k v

/-- Python-dict lookup `d[k]`, `none` standing for `KeyError`. -/
def dictGet (ls : List (LaneKey × TrafficLight)) (k : LaneKey) :
    Option TrafficLight :=
  match ls with
  | [] => none
  | (k', v) :: rest => if k' = k then some v else dictGet rest k

/-- `IntersectionController.add_light`: register a fresh light under the
composite key and append a new single-element group. -/
def IntersectionController.add_light (c : IntersectionController)
    (direction lane_type : String) (p : SignalPhase) : IntersectionController :=
  { c with
    lights := dictInsert c.lights (direction, lane_type) (TrafficLight.init p),
    current_group_phase := c.current_group_phase ++ [[(direction, lane_type)]] }

/-- Code-point-lexicographic string comparison (Python `str < str`), using
the core character-list order on `String.data`. -/
def strLtB (a b : String) : Bool :=
  @decide (@LT.lt String String.instLT a b) (String.decLt a b)

/-- Python tuple comparison on `(direction, lane_type)`. -/
def keyLt (a b : LaneKey) : Bool :=
  strLtB a.1 b.1 || (decide (a.1 = b.1) && strLtB a.2 b.2)

/-- Python list comparison (lexicographic) on groups of lane keys. -/
def groupLt : List LaneKey → List LaneKey → Bool
  | [], [] => false
  | [], _ :: _ => true
  | _ :: _, [] => false
  | a :: as, b :: bs => if keyLt a b then true else if a = b then groupLt as bs else false

/-- One insertion step of a stable descending insertion sort. -/
def groupInsert (x : List LaneKey) : List (List LaneKey) → List (List LaneKey)
  | [] => [x]
  | y :: ys => if groupLt y x then x :: y :: ys else y :: groupInsert x ys

/-- Stable descending sort, modelling `list.sort(reverse=True)`. -/
def sortGroupsDesc (l : List (List LaneKey)) : List (List LaneKey) :=
  l.foldl (fun acc x => groupInsert x acc) []

/-- `IntersectionController.sort_lights`:
`self.current_group_phase.sort(reverse=True)`. -/
def IntersectionController.sort_lights (c : IntersectionController) :
    IntersectionController :=
  { c with current_group_phase := sortGroupsDesc c.current_group_phase }

/-- The dispatch loop of `IntersectionController.update` (lines 56-61): each
registered light is ticked if its key belongs to the active group, else forced
red.  The active group is looked up per iteration, so an out-of-range
`current_group` raises (`none`) only when there is at least one light. -/
def dispatch (groups : List (List LaneKey)) (cg : Nat) :
    List (LaneKey × TrafficLight) → Option (List (LaneKey × TrafficLight))
  | [] => some []
  | (k, l) :: rest =>
      match groups.get? cg with
      | none => none
      | some active =>
          let l' := if k ∈ active then l.update else forceRed l
          match dispatch groups cg rest with
          | none => none
          | some rest' => some ((k, l') :: rest')

/-- The completion generator (line 63):
`all(self.lights[key[0]].state == 'RED' and self.lights[key[0]].timer == 0
for key in self.current_group_phase)`.  Here `key` ranges over the groups, so
`key[0]` is the first full LaneKey tuple of each group; `all` short-circuits
at the first failing group, and a missing first element or key raises. -/
def allReady (lights : List (LaneKey × TrafficLight)) :
    List (List LaneKey) → Option Bool
  | [] => some true
  | g :: rest =>
      match g.head? with
      | none => none
      | some k =>
          match dictGet lights k with
          | none => none
          | some l =>
              if l.state = LightState.RED ∧ l.timer = 0 then allReady lights rest
              else some false

/-- `IntersectionController.update` (lines 51-65).  `none` models a raised
exception (including the `% 0` of an empty group list on the advance path). -/
def IntersectionController.update (c : IntersectionController) :
    Option IntersectionController :=
  if c.time_in_all_red > 1 then
    some { c with time_in_all_red := c.time_in_all_red - 1 }
  else
    match dispatch c.current_group_phase c.current_group c.lights with
    | none => none
    | some ls2 =>
        match allReady ls2 c.current_group_phase with
        | none => none
        | some true =>
            if c.current_group_phase.length = 0 then none
            else
              some { c with
                     lights := ls2,
                     current_group :=
                       (c.current_group + 1) % c.current_group_phase.length,
                     time_in_all_red := c.all_red_time }
        | some false => some { c with lights := ls2 }

/-- Iterated `update`, propagating a raised exception. -/
def updateIter : Nat → IntersectionController → Option IntersectionController
  | 0, c => some c
  | n + 1, c =>
      match c.update with
      | none => none
      | some c' => updateIter n c'

/-- A controller built through the public configuration path (spec §6): one
`add_light` per `(direction, lane_type, green_duration, yellow_duration)`
tuple — `SignalPhase` is only ever constructed via its two-argument
constructor, so `red_time = 0` — followed by one `sort_lights` call. -/
def buildController (a : Int) (ls : List (String × String × Int × Int)) :
    IntersectionController :=
  (ls.foldl
    (fun c x => c.add_light x.1 x.2.1 (SignalPhase.init x.2.2.1 x.2.2.2))
    (IntersectionController.init a)).sort_lights

/-- Decidable reading of the spec's completion condition: every LaneKey of the
group, addressed by its full composite key, is `RED` with timer exactly 0. -/
def activeGroupReady (lights : List (LaneKey × TrafficLight))
    (g : List LaneKey) : Bool :=
  g.all fun k =>
    match dictGet lights k with
    | some l => decide (l.state = LightState.RED ∧ l.timer = 0)
    | none => false

/-! ### TrafficLight lemmas -/

lemma update_of_neg (l : TrafficLight) (h : l.timer - 1 < 0) :
    l.update = TrafficLight.advance_state { l with timer := l.timer - 1 } := by
  simp only [TrafficLight.update]
  rw [if_pos h]

lemma update_of_nonneg (l : TrafficLight) (h : 0 ≤ l.timer - 1) :
    l.update = { l with timer := l.timer - 1 } := by
  simp only [TrafficLight.update]
  rw [if_neg (by omega)]

lemma advance_state_timer_irrel (l : TrafficLight) (x : Int) :
    TrafficLight.advance_state { l with timer := x } = l.advance_state := by
  cases l with
  | mk p s t => cases s <;> rfl

lemma advance_state_of_red (l : TrafficLight) (h : l.state = LightState.RED) :
    l.advance_state
      = { l with state := LightState.GREEN, timer := l.signal_phase.green_time } := by
  cases l with
  | mk p s t => cases s <;> simp_all [TrafficLight.advance_state]

lemma advance_state_of_green (l : TrafficLight) (h : l.state = LightState.GREEN) :
    l.advance_state
      = { l with state := LightState.YELLOW, timer := l.signal_phase.yellow_time } := by
  cases l with
  | mk p s t => cases s <;> simp_all [TrafficLight.advance_state]

lemma advance_state_of_yellow (l : TrafficLight) (h : l.state = LightState.YELLOW) :
    l.advance_state
      = { l with state := LightState.RED, timer := l.signal_phase.red_time } := by
  cases l with
  | mk p s t => cases s <;> simp_all [TrafficLight.advance_state]

/-- A light whose timer holds the non-negative value `t` ticks down for `t`
steps and transitions on step `t + 1`. -/
lemma update_countdown (t : Nat) :
    ∀ l : TrafficLight, l.timer = (t : Int) →
      (TrafficLight.update)^[t + 1] l = l.advance_state := by
  induction t with
  | zero =>
      intro l h
      rw [Function.iterate_one, update_of_neg l (by omega),
        advance_state_timer_irrel]
  | succ t ih =>
      intro l h
      rw [Function.iterate_succ_apply, update_of_nonneg l (by omega)]
      have ht : ({ l with timer := l.timer - 1 } : TrafficLight).timer = (t : Int) := by
        simp [h]
      rw [ih _ ht, advance_state_timer_irrel]

/-! ### Claims about the TrafficLight state machine -/

/-- C3: one call to `TrafficLight.update` decrements the timer by 1; if the
timer is then negative the light advances cyclically RED → GREEN → YELLOW →
RED with the timer reset to the newly entered state's configured duration,
and if the timer is still non-negative the state is unchanged. -/
theorem tick_semantics (l : TrafficLight) :
    (0 ≤ l.timer - 1 → l.update = { l with timer := l.timer - 1 }) ∧
    (l.timer - 1 < 0 →
      (l.state = LightState.RED →
        l.update = { l with state := LightState.GREEN,
                            timer := l.signal_phase.green_time }) ∧
      (l.state = LightState.GREEN →
        l.update = { l with state := LightState.YELLOW,
                            timer := l.signal_phase.yellow_time }) ∧
      (l.state = LightState.YELLOW →
        l.update = { l with state := LightState.RED,
                            timer := l.signal_phase.red_time })) := by
  refine ⟨fun h => update_of_nonneg l h,
    fun h => ⟨fun hs => ?_, fun hs => ?_, fun hs => ?_⟩⟩
  · rw [update_of_neg l h, advance_state_timer_irrel, advance_state_of_red l hs]
  · rw [update_of_neg l h, advance_state_timer_irrel, advance_state_of_green l hs]
  · rw [update_of_neg l h, advance_state_timer_irrel, advance_state_of_yellow l hs]

/-- C3 witness: the RED → GREEN transition of the unit test's phase (3, 2). -/
theorem tick_semantics_witness :
    (TrafficLight.init (SignalPhase.init 3 2)).update
      = { signal_phase := SignalPhase.init 3 2,
          state := LightState.GREEN, timer := 3 } :=
  ((tick_semantics (TrafficLight.init (SignalPhase.init 3 2))).2
    (by decide)).1 (by decide)

/-- C5: for any non-negative durations `g` and `y`, a light started in RED
(by the constructor, hence with timer `red_time = 0`) and ticked exactly
`1 + g + 1 + y + 1` times is again exactly the RED-entry state it started
from — same RED state and same timer value. -/
theorem cycle_closure (g y : Nat) :
    (TrafficLight.update)^[1 + g + 1 + y + 1]
        (TrafficLight.init (SignalPhase.init (g : Int) (y : Int)))
      = TrafficLight.init (SignalPhase.init (g : Int) (y : Int)) := by
  have h1 : (TrafficLight.update)^[0 + 1]
      (TrafficLight.init (SignalPhase.init (g : Int) (y : Int)))
      = { signal_phase := SignalPhase.init (g : Int) (y : Int),
          state := LightState.GREEN, timer := (g : Int) } := by
    rw [update_countdown 0 _ (by simp [TrafficLight.init, SignalPhase.init])]
    rfl
  have h2 : (TrafficLight.update)^[g + 1]
      ({ signal_phase := SignalPhase.init (g : Int) (y : Int),
         state := LightState.GREEN, timer := (g : Int) } : TrafficLight)
      = { signal_phase := SignalPhase.init (g : Int) (y : Int),
          state := LightState.YELLOW, timer := (y : Int) } := by
    rw [update_countdown g _ rfl]
    rfl
  have h3 : (TrafficLight.update)^[y + 1]
      ({ signal_phase := SignalPhase.init (g : Int) (y : Int),
         state := LightState.YELLOW, timer := (y : Int) } : TrafficLight)
      = TrafficLight.init (SignalPhase.init (g : Int) (y : Int)) := by
    rw [update_countdown y _ rfl]
    rfl
  have key : 1 + g + 1 + y + 1 = (y + 1) + ((g + 1) + (0 + 1)) := by omega
  rw [key,
    Function.iterate_add_apply TrafficLight.update (y + 1) ((g + 1) + (0 + 1)),
    Function.iterate_add_apply TrafficLight.update (g + 1) (0 + 1), h1, h2, h3]

/-- C6: whenever the phase durations are non-negative, the timer is
non-negative immediately after any `update` returns — the transient negative
value of the decrement never escapes the call (for any state, hence for
every reachable one). -/
theorem timer_nonneg_after_update (l : TrafficLight)
    (hg : 0 ≤ l.signal_phase.green_time) (hy : 0 ≤ l.signal_phase.yellow_time)
    (hr : 0 ≤ l.signal_phase.red_time) : 0 ≤ l.update.timer := by
  by_cases h : l.timer - 1 < 0
  · rw [update_of_neg l h, advance_state_timer_irrel]
    cases hs : l.state
    · rw [advance_state_of_red l hs]; exact hg
    · rw [advance_state_of_green l hs]; exact hy
    · rw [advance_state_of_yellow l hs]; exact hr
  · rw [update_of_nonneg l (by omega)]
    simp only []
    omega

/-- C6 witness: the constructor state of phase (3, 2). -/
theorem timer_nonneg_after_update_witness :
    0 ≤ (TrafficLight.init (SignalPhase.init 3 2)).signal_phase.green_time ∧
    0 ≤ (TrafficLight.init (SignalPhase.init 3 2)).signal_phase.yellow_time ∧
    0 ≤ (TrafficLight.init (SignalPhase.init 3 2)).signal_phase.red_time ∧
    0 ≤ (TrafficLight.init (SignalPhase.init 3 2)).update.timer :=
  ⟨by decide, by decide, by decide,
    timer_nonneg_after_update _ (by decide) (by decide) (by decide)⟩

/-- C7: the forced-red override writes only the `state` field (to RED),
leaves the timer and phase untouched, and does not modify a light that is
already RED. -/
theorem forced_red_frame (l : TrafficLight) :
    (forceRed l).state = LightState.RED ∧
    (forceRed l).timer = l.timer ∧
    (forceRed l).signal_phase = l.signal_phase ∧
    (l.state = LightState.RED → forceRed l = l) := by
  unfold forceRed
  by_cases h : l.state = LightState.RED <;> simp [h]

/-- C7 witness: a GREEN light keeps its timer; a RED light is untouched. -/
theorem forced_red_frame_witness :
    (forceRed { signal_phase := SignalPhase.init 3 2,
                state := LightState.GREEN, timer := 5 }).timer = 5 ∧
    forceRed { signal_phase := SignalPhase.init 3 2,
               state := LightState.RED, timer := 5 }
      = { signal_phase := SignalPhase.init 3 2,
          state := LightState.RED, timer := 5 } :=
  ⟨(forced_red_frame _).2.1, (forced_red_frame _).2.2.2 rfl⟩

/-- C8 counterexample: `SignalPhase(-1, 2)` is accepted without any
validation, and the negative green duration reaches the timer logic — the
very first tick of a light built from it returns with `timer = -1 < 0`. -/
theorem phase_validation_cex :
    SignalPhase.init (-1) 2
        = { green_time := -1, yellow_time := 2, red_time := 0 } ∧
    (TrafficLight.init (SignalPhase.init (-1) 2)).update
        = { signal_phase := { green_time := -1, yellow_time := 2, red_time := 0 },
            state := LightState.GREEN, timer := -1 } := by
  exact ⟨rfl, by decide⟩

/-- C8 amended: `SignalPhase` construction performs no validation — any
integers are stored verbatim (with `red_time = 0`), and a negative green
duration propagates into the timer logic: the first tick of a freshly built
light ends with the negative timer `g`. -/
theorem negative_duration_reaches_timer (g y : Int) (hg : g < 0) :
    (TrafficLight.init (SignalPhase.init g y)).update
        = { signal_phase := { green_time := g, yellow_time := y, red_time := 0 },
            state := LightState.GREEN, timer := g }
    ∧ (TrafficLight.init (SignalPhase.init g y)).update.timer < 0 := by
  have h : (TrafficLight.init (SignalPhase.init g y)).update
      = { signal_phase := { green_time := g, yellow_time := y, red_time := 0 },
          state := LightState.GREEN, timer := g } := by
    rw [update_of_neg _ (by simp [TrafficLight.init, SignalPhase.init]),
      advance_state_timer_irrel, advance_state_of_red _ rfl]
    rfl
  exact ⟨h, by rw [h]; exact hg⟩

/-- C8 amended witness: the concrete phase `SignalPhase(-1, 2)`. -/
theorem negative_duration_reaches_timer_witness :
    (-1 : Int) < 0 ∧
    ((TrafficLight.init (SignalPhase.init (-1) 2)).update
        = { signal_phase := { green_time := -1, yellow_time := 2, red_time := 0 },
            state := LightState.GREEN, timer := -1 }
      ∧ (TrafficLight.init (SignalPhase.init (-1) 2)).update.timer < 0) :=
  ⟨by decide, negative_duration_reaches_timer (-1) 2 (by decide)⟩

/-! ### Controller claims: configuration misuse and the clearance gate -/

/-- C9 counterexample: `sort_lights` before any lane is added succeeds
silently (it sorts the empty group list and returns the controller
unchanged), and `update` before `sort_lights` also runs normally — neither
fails fast with an invalid-state error. -/
theorem config_misuse_cex :
    IntersectionController.sort_lights (IntersectionController.init 4)
        = IntersectionController.init 4 ∧
    (IntersectionController.update ((IntersectionController.init 4).add_light
        "NS" "through" (SignalPhase.init 3 2))).isSome = true := by
  exact ⟨rfl, by decide⟩

/-- C9 amended: no configuration-state validation exists.  `sort_lights` on
a lane-less controller is a silent no-op; `update` before `sort_lights`
operates normally on the insertion-ordered group list; only `update` on a
controller with no lanes at all raises (an incidental division-by-zero on
the empty group list, modelled as `none`), not a designed invalid-state
error. -/
theorem config_misuse_behavior (a g y : Int) (d t : String) :
    IntersectionController.sort_lights (IntersectionController.init a)
        = IntersectionController.init a ∧
    IntersectionController.update (IntersectionController.init a) = none ∧
    IntersectionController.update
        ((IntersectionController.init a).add_light d t (SignalPhase.init g y))
      = some { all_red_time := a, time_in_all_red := 0, timer := 0,
               lights := [((d, t),
                 { signal_phase := SignalPhase.init g y,
                   state := LightState.GREEN, timer := g })],
               current_group := 0,
               current_group_phase := [[(d, t)]] } := by
  refine ⟨rfl, rfl, ?_⟩
  simp [IntersectionController.update, IntersectionController.add_light,
    IntersectionController.init, dispatch, dictInsert, dictGet, allReady,
    TrafficLight.init, TrafficLight.update, TrafficLight.advance_state,
    SignalPhase.init]

/-- C1: while the clearance counter holds a value `a`, the next `j ≤ a - 1`
calls to `update` only decrement the counter: every other field — in
particular every light's state and timer — is frozen, so no lane (in the
newly active group or elsewhere) leaves RED before at least
`clearance_duration` ticks have elapsed since the counter was armed.  The
second conjunct is the single-step gate: if the counter exceeds 1, `update`
only decrements it and returns. -/
theorem clearance_enforcement (c : IntersectionController) (j : Nat)
    (hj : (j : Int) ≤ c.time_in_all_red - 1) :
    updateIter j c
        = some { c with time_in_all_red := c.time_in_all_red - (j : Int) } ∧
    (c.time_in_all_red > 1 →
      c.update = some { c with time_in_all_red := c.time_in_all_red - 1 }) := by
  constructor
  · induction j generalizing c with
    | zero =>
        cases c
        simp [updateIter]
    | succ j ih =>
        have hgt : c.time_in_all_red > 1 := by
          push_cast at hj
          omega
        have hstep : c.update
            = some { c with time_in_all_red := c.time_in_all_red - 1 } := by
          simp [IntersectionController.update, hgt]
        have hj2 : (j : Int)
            ≤ ({ c with time_in_all_red := c.time_in_all_red - 1 }
                : IntersectionController).time_in_all_red - 1 := by
          push_cast at hj
          simp only []
          omega
        simp only [updateIter]
        rw [hstep]
        simp only []
        rw [ih _ hj2]
        cases c
        simp only [Option.some.injEq, IntersectionController.mk.injEq]
        push_cast
        refine ⟨trivial, ?_, trivial, trivial, trivial, trivial⟩
        ring
  · intro hgt
    simp [IntersectionController.update, hgt]

/-- C1 witness: a single-lane controller with the counter armed at 4 is
frozen (all fields except the counter unchanged) across 3 gated ticks. -/
theorem clearance_enforcement_witness :
    updateIter 3
        { all_red_time := 4, time_in_all_red := 4, timer := 0,
          lights := [(("NS", "through"),
            { signal_phase := SignalPhase.init 3 2,
              state := LightState.RED, timer := 0 })],
          current_group := 0, current_group_phase := [[("NS", "through")]] }
      = some { all_red_time := 4, time_in_all_red := 1, timer := 0,
               lights := [(("NS", "through"),
                 { signal_phase := SignalPhase.init 3 2,
                   state := LightState.RED, timer := 0 })],
               current_group := 0,
               current_group_phase := [[("NS", "through")]] } :=
  (clearance_enforcement
    { all_red_time := 4, time_in_all_red := 4, timer := 0,
      lights := [(("NS", "through"),
        { signal_phase := SignalPhase.init 3 2,
          state := LightState.RED, timer := 0 })],
      current_group := 0, current_group_phase := [[("NS", "through")]] }
    3 (by decide)).1

/-! ### Association-list, sort and loop lemmas -/

lemma dictGet_some_mem {ls : List (LaneKey × TrafficLight)} {k : LaneKey}
    {v : TrafficLight} (h : dictGet ls k = some v) : (k, v) ∈ ls := by
  induction ls with
  | nil => simp [dictGet] at h
  | cons hd tl ih =>
      obtain ⟨k0, v0⟩ := hd
      simp only [dictGet] at h
      by_cases hk : k0 = k
      · rw [if_pos hk] at h
        subst hk
        obtain rfl : v0 = v := by simpa using h
        exact List.mem_cons_self _ _
      · rw [if_neg hk] at h
        exact List.mem_cons_of_mem _ (ih h)

lemma dictGet_of_mem {ls : List (LaneKey × TrafficLight)} {k : LaneKey}
    {v : TrafficLight} (hn : (ls.map Prod.fst).Nodup) (h : (k, v) ∈ ls) :
    dictGet ls k = some v := by
  induction ls with
  | nil => simp at h
  | cons hd tl ih =>
      obtain ⟨k0, v0⟩ := hd
      simp only [List.map_cons, List.nodup_cons] at hn
      rcases List.mem_cons.mp h with h1 | h1
      · obtain ⟨rfl, rfl⟩ : k = k0 ∧ v = v0 := by simpa using h1
        simp [dictGet]
      · have hne : k0 ≠ k := by
          rintro rfl
          exact hn.1 (List.mem_map.mpr ⟨(k0, v), h1, rfl⟩)
        simp only [dictGet, if_neg hne]
        exact ih hn.2 h1

lemma mem_keys_exists {ls : List (LaneKey × TrafficLight)} {k : LaneKey}
    (h : k ∈ ls.map Prod.fst) : ∃ v, (k, v) ∈ ls := by
  obtain ⟨⟨k0, v⟩, hm, rfl⟩ := List.mem_map.mp h
  exact ⟨v, hm⟩

lemma dictInsert_cons_eq (k0 k : LaneKey) (v0 v : TrafficLight)
    (tl : List (LaneKey × TrafficLight)) (h : k0 = k) :
    dictInsert ((k0, v0) :: tl) k v = (k, v) :: tl := by
  simp [dictInsert, h]

lemma dictInsert_cons_ne (k0 k : LaneKey) (v0 v : TrafficLight)
    (tl : List (LaneKey × TrafficLight)) (h : k0 ≠ k) :
    dictInsert ((k0, v0) :: tl) k v = (k0, v0) :: dictInsert tl k v := by
  simp [dictInsert, h]

lemma dictInsert_key_mem (ls : List (LaneKey × TrafficLight)) (k : LaneKey)
    (v : TrafficLight) : k ∈ (dictInsert ls k v).map Prod.fst := by
  induction ls with
  | nil => simp [dictInsert]
  | cons hd tl ih =>
      obtain ⟨k0, v0⟩ := hd
      by_cases hk : k0 = k
      · rw [dictInsert_cons_eq k0 k v0 v tl hk]
        simp
      · rw [dictInsert_cons_ne k0 k v0 v tl hk]
        simp only [List.map_cons, List.mem_cons]
        exact Or.inr ih

lemma dictInsert_keys_sub {ls : List (LaneKey × TrafficLight)} {k k1 : LaneKey}
    {v : TrafficLight} (h : k1 ∈ (dictInsert ls k v).map Prod.fst) :
    k1 ∈ ls.map Prod.fst ∨ k1 = k := by
  induction ls with
  | nil => simpa [dictInsert] using h
  | cons hd tl ih =>
      obtain ⟨k0, v0⟩ := hd
      by_cases hk : k0 = k
      · rw [dictInsert_cons_eq k0 k v0 v tl hk] at h
        subst hk
        simp only [List.map_cons, List.mem_cons] at h ⊢
        tauto
      · rw [dictInsert_cons_ne k0 k v0 v tl hk] at h
        simp only [List.map_cons, List.mem_cons] at h ⊢
        rcases h with h | h
        · exact Or.inl (Or.inl h)
        · rcases ih h with h1 | h1
          · exact Or.inl (Or.inr h1)
          · exact Or.inr h1

lemma dictInsert_keys_super {ls : List (LaneKey × TrafficLight)} {k k1 : LaneKey}
    {v : TrafficLight} (h : k1 ∈ ls.map Prod.fst) :
    k1 ∈ (dictInsert ls k v).map Prod.fst := by
  induction ls with
  | nil => simp at h
  | cons hd tl ih =>
      obtain ⟨k0, v0⟩ := hd
      simp only [List.map_cons, List.mem_cons] at h
      by_cases hk : k0 = k
      · rw [dictInsert_cons_eq k0 k v0 v tl hk]
        subst hk
        simp only [List.map_cons, List.mem_cons]
        exact h
      · rw [dictInsert_cons_ne k0 k v0 v tl hk]
        simp only [List.map_cons, List.mem_cons]
        rcases h with h | h
        · exact Or.inl h
        · exact Or.inr (ih h)

lemma dictInsert_nodup {ls : List (LaneKey × TrafficLight)} {k : LaneKey}
    {v : TrafficLight} (hn : (ls.map Prod.fst).Nodup) :
    ((dictInsert ls k v).map Prod.fst).Nodup := by
  induction ls with
  | nil => simp [dictInsert]
  | cons hd tl ih =>
      obtain ⟨k0, v0⟩ := hd
      simp only [List.map_cons, List.nodup_cons] at hn
      by_cases hk : k0 = k
      · rw [dictInsert_cons_eq k0 k v0 v tl hk]
        subst hk
        simp only [List.map_cons, List.nodup_cons]
        exact hn
      · rw [dictInsert_cons_ne k0 k v0 v tl hk]
        simp only [List.map_cons, List.nodup_cons]
        refine ⟨fun hmem => ?_, ih hn.2⟩
        rcases dictInsert_keys_sub hmem with h1 | h1
        · exact hn.1 h1
        · exact hk h1

lemma dictInsert_mem {ls : List (LaneKey × TrafficLight)} {k k1 : LaneKey}
    {v v1 : TrafficLight} (h : (k1, v1) ∈ dictInsert ls k v) :
    (k1, v1) ∈ ls ∨ (k1 = k ∧ v1 = v) := by
  induction ls with
  | nil =>
      simp only [dictInsert, List.mem_singleton, Prod.mk.injEq] at h
      exact Or.inr h
  | cons hd tl ih =>
      obtain ⟨k0, v0⟩ := hd
      by_cases hk : k0 = k
      · rw [dictInsert_cons_eq k0 k v0 v tl hk] at h
        simp only [List.mem_cons, Prod.mk.injEq] at h
        rcases h with h | h
        · exact Or.inr h
        · exact Or.inl (List.mem_cons_of_mem _ h)
      · rw [dictInsert_cons_ne k0 k v0 v tl hk] at h
        simp only [List.mem_cons] at h
        rcases h with h | h
        · exact Or.inl (List.mem_cons.mpr (Or.inl h))
        · rcases ih h with h1 | h1
          · exact Or.inl (List.mem_cons_of_mem _ h1)
          · exact Or.inr h1

lemma mem_groupInsert {x y : List LaneKey} {l : List (List LaneKey)} :
    y ∈ groupInsert x l ↔ y = x ∨ y ∈ l := by
  induction l with
  | nil => simp [groupInsert]
  | cons z zs ih =>
      by_cases h : groupLt z x <;> simp [groupInsert, h, ih] <;> tauto

lemma mem_foldl_groupInsert (l : List (List LaneKey)) :
    ∀ (acc : List (List LaneKey)) (y : List LaneKey),
      y ∈ l.foldl (fun a x => groupInsert x a) acc ↔ y ∈ acc ∨ y ∈ l := by
  induction l with
  | nil => simp
  | cons x xs ih =>
      intro acc y
      simp only [List.foldl_cons, ih, mem_groupInsert, List.mem_cons]
      tauto

lemma mem_sortGroupsDesc {y : List LaneKey} {l : List (List LaneKey)} :
    y ∈ sortGroupsDesc l ↔ y ∈ l := by
  simp [sortGroupsDesc, mem_foldl_groupInsert]

lemma dispatch_keys {groups : List (List LaneKey)} {cg : Nat}
    {ls ls2 : List (LaneKey × TrafficLight)}
    (h : dispatch groups cg ls = some ls2) :
    ls2.map Prod.fst = ls.map Prod.fst := by
  induction ls generalizing ls2 with
  | nil =>
      simp only [dispatch, Option.some.injEq] at h
      subst h
      rfl
  | cons hd tl ih =>
      obtain ⟨k, lt⟩ := hd
      simp only [dispatch] at h
      cases hg : groups.get? cg with
      | none => rw [hg] at h; exact absurd h (by simp)
      | some active =>
          rw [hg] at h
          cases hd2 : dispatch groups cg tl with
          | none => rw [hd2] at h; exact absurd h (by simp)
          | some rest2 =>
              rw [hd2] at h
              simp only [Option.some.injEq] at h
              subst h
              simp [ih hd2]

lemma dispatch_mem {groups : List (List LaneKey)} {cg : Nat}
    {ls ls2 : List (LaneKey × TrafficLight)}
    (h : dispatch groups cg ls = some ls2) :
    ∀ {k : LaneKey} {lt2 : TrafficLight}, (k, lt2) ∈ ls2 →
      ∃ lt active, (k, lt) ∈ ls ∧ groups.get? cg = some active ∧
        lt2 = (if k ∈ active then lt.update else forceRed lt) := by
  induction ls generalizing ls2 with
  | nil =>
      simp only [dispatch, Option.some.injEq] at h
      subst h
      intro k lt2 hm
      simp at hm
  | cons hd tl ih =>
      obtain ⟨k0, lt0⟩ := hd
      simp only [dispatch] at h
      cases hg : groups.get? cg with
      | none => rw [hg] at h; exact absurd h (by simp)
      | some active =>
          rw [hg] at h
          cases hd2 : dispatch groups cg tl with
          | none => rw [hd2] at h; exact absurd h (by simp)
          | some rest2 =>
              rw [hd2] at h
              simp only [Option.some.injEq] at h
              subst h
              intro k lt2 hm
              rcases List.mem_cons.mp hm with hm1 | hm1
              · obtain ⟨rfl, rfl⟩ : k = k0 ∧
                    lt2 = (if k0 ∈ active then lt0.update else forceRed lt0) := by
                  simpa using hm1
                exact ⟨lt0, active, List.mem_cons_self _ _, rfl, rfl⟩
              · obtain ⟨lt, active2, hmem, hget, he⟩ := ih hd2 hm1
                rw [hg] at hget
                exact ⟨lt, active2, List.mem_cons_of_mem _ hmem, hget, he⟩

lemma allReady_cons_nohead {lights : List (LaneKey × TrafficLight)}
    {g : List LaneKey} {gs : List (List LaneKey)} (hh : g.head? = none) :
    allReady lights (g :: gs) = none := by
  simp [allReady, hh]

lemma allReady_cons_nokey {lights : List (LaneKey × TrafficLight)}
    {g : List LaneKey} {gs : List (List LaneKey)} {k : LaneKey}
    (hh : g.head? = some k) (hd : dictGet lights k = none) :
    allReady lights (g :: gs) = none := by
  simp [allReady, hh, hd]

lemma allReady_cons_key {lights : List (LaneKey × TrafficLight)}
    {g : List LaneKey} {gs : List (List LaneKey)} {k : LaneKey}
    {lt : TrafficLight} (hh : g.head? = some k) (hd : dictGet lights k = some lt) :
    allReady lights (g :: gs)
      = if lt.state = LightState.RED ∧ lt.timer = 0 then allReady lights gs
        else some false := by
  simp only [allReady, hh, hd]

lemma allReady_eq_true {lights : List (LaneKey × TrafficLight)}
    {groups : List (List LaneKey)} (h : allReady lights groups = some true) :
    ∀ g ∈ groups, ∃ k lt, g.head? = some k ∧ dictGet lights k = some lt ∧
      lt.state = LightState.RED ∧ lt.timer = 0 := by
  induction groups with
  | nil => simp
  | cons g gs ih =>
      cases hh : g.head? with
      | none => rw [allReady_cons_nohead hh] at h; exact absurd h (by simp)
      | some k =>
          cases hd : dictGet lights k with
          | none => rw [allReady_cons_nokey hh hd] at h; exact absurd h (by simp)
          | some lt =>
              rw [allReady_cons_key hh hd] at h
              by_cases hc : lt.state = LightState.RED ∧ lt.timer = 0
              · rw [if_pos hc] at h
                intro g2 hg2
                rcases List.mem_cons.mp hg2 with rfl | hg2
                · exact ⟨k, lt, hh, hd, hc⟩
                · exact ih h g2 hg2
              · rw [if_neg hc] at h
                exact absurd h (by simp)

lemma allReady_eq_false {lights : List (LaneKey × TrafficLight)}
    {groups : List (List LaneKey)} (h : allReady lights groups = some false) :
    ∃ g ∈ groups, ∃ k lt, g.head? = some k ∧ dictGet lights k = some lt ∧
      ¬(lt.state = LightState.RED ∧ lt.timer = 0) := by
  induction groups with
  | nil => exact absurd h (by simp [allReady])
  | cons g gs ih =>
      cases hh : g.head? with
      | none => rw [allReady_cons_nohead hh] at h; exact absurd h (by simp)
      | some k =>
          cases hd : dictGet lights k with
          | none => rw [allReady_cons_nokey hh hd] at h; exact absurd h (by simp)
          | some lt =>
              rw [allReady_cons_key hh hd] at h
              by_cases hc : lt.state = LightState.RED ∧ lt.timer = 0
              · rw [if_pos hc] at h
                obtain ⟨g2, hg2, rest⟩ := ih h
                exact ⟨g2, List.mem_cons_of_mem _ hg2, rest⟩
              · exact ⟨g, List.mem_cons_self _ _, k, lt, hh, hd, hc⟩

/-- Branchwise evaluation of a non-gated `update`. -/
lemma update_eq_of_false {c : IntersectionController}
    {ls2 : List (LaneKey × TrafficLight)} (hng : ¬ c.time_in_all_red > 1)
    (hd : dispatch c.current_group_phase c.current_group c.lights = some ls2)
    (har : allReady ls2 c.current_group_phase = some false) :
    c.update = some { c with lights := ls2 } := by
  simp [IntersectionController.update, hng, hd, har]

lemma update_eq_of_true {c : IntersectionController}
    {ls2 : List (LaneKey × TrafficLight)} (hng : ¬ c.time_in_all_red > 1)
    (hd : dispatch c.current_group_phase c.current_group c.lights = some ls2)
    (har : allReady ls2 c.current_group_phase = some true)
    (hlen : ¬ c.current_group_phase.length = 0) :
    c.update = some { c with
                      lights := ls2,
                      current_group :=
                        (c.current_group + 1) % c.current_group_phase.length,
                      time_in_all_red := c.all_red_time } := by
  simp [IntersectionController.update, hng, hd, har, hlen]

lemma update_eq_none_of_dispatch {c : IntersectionController}
    (hng : ¬ c.time_in_all_red > 1)
    (hd : dispatch c.current_group_phase c.current_group c.lights = none) :
    c.update = none := by
  simp [IntersectionController.update, hng, hd]

lemma update_eq_none_of_allReady {c : IntersectionController}
    {ls2 : List (LaneKey × TrafficLight)} (hng : ¬ c.time_in_all_red > 1)
    (hd : dispatch c.current_group_phase c.current_group c.lights = some ls2)
    (har : allReady ls2 c.current_group_phase = none) :
    c.update = none := by
  simp [IntersectionController.update, hng, hd, har]

lemma update_eq_none_of_empty {c : IntersectionController}
    {ls2 : List (LaneKey × TrafficLight)} (hng : ¬ c.time_in_all_red > 1)
    (hd : dispatch c.current_group_phase c.current_group c.lights = some ls2)
    (har : allReady ls2 c.current_group_phase = some true)
    (hlen : c.current_group_phase.length = 0) :
    c.update = none := by
  simp [IntersectionController.update, hng, hd, har, hlen]

/-- Shape of a successful non-gated `update` call: the dispatched lights,
and either the advance branch or the unchanged branch of the completion
check. -/
lemma update_shape {c c2 : IntersectionController}
    (hng : ¬ c.time_in_all_red > 1) (h : c.update = some c2) :
    ∃ ls2, dispatch c.current_group_phase c.current_group c.lights = some ls2 ∧
      ((allReady ls2 c.current_group_phase = some true ∧
          c.current_group_phase.length ≠ 0 ∧
          c2 = { c with
                 lights := ls2,
                 current_group :=
                   (c.current_group + 1) % c.current_group_phase.length,
                 time_in_all_red := c.all_red_time }) ∨
       (allReady ls2 c.current_group_phase = some false ∧
          c2 = { c with lights := ls2 })) := by
  cases hd : dispatch c.current_group_phase c.current_group c.lights with
  | none =>
      rw [update_eq_none_of_dispatch hng hd] at h
      exact absurd h (by simp)
  | some ls2 =>
      cases har : allReady ls2 c.current_group_phase with
      | none =>
          rw [update_eq_none_of_allReady hng hd har] at h
          exact absurd h (by simp)
      | some b =>
          cases b with
          | false =>
              rw [update_eq_of_false hng hd har] at h
              exact ⟨ls2, rfl, Or.inr ⟨har, (Option.some.inj h).symm⟩⟩
          | true =>
              by_cases hlen : c.current_group_phase.length = 0
              · rw [update_eq_none_of_empty hng hd har hlen] at h
                exact absurd h (by simp)
              · rw [update_eq_of_true hng hd har hlen] at h
                exact ⟨ls2, rfl, Or.inl ⟨har, hlen, (Option.some.inj h).symm⟩⟩

/-! ### The reachable-state invariant -/

lemma forceRed_of_red {l : TrafficLight} (h : l.state = LightState.RED) :
    forceRed l = l := by
  simp [forceRed, h]

/-- Invariant of every controller state reachable through the public
configuration path followed by `update` calls. -/
structure CtrlInv (c : IntersectionController) : Prop where
  nodupKeys : (c.lights.map Prod.fst).Nodup
  coverage : ∀ k lt, (k, lt) ∈ c.lights →
    ∃ g, g ∈ c.current_group_phase ∧ g.head? = some k
  singletons : ∀ g ∈ c.current_group_phase, ∃ k lt, g = [k] ∧ (k, lt) ∈ c.lights
  inactiveRed : ∀ k lt g, (k, lt) ∈ c.lights →
    c.current_group_phase.get? c.current_group = some g → k ∉ g →
    lt.state = LightState.RED ∧ lt.timer = 0

lemma add_light_preserves {c : IntersectionController} (d t : String)
    {p : SignalPhase} (hp : p.red_time = 0)
    (h1 : (c.lights.map Prod.fst).Nodup)
    (h2 : ∀ k lt, (k, lt) ∈ c.lights →
      ∃ g, g ∈ c.current_group_phase ∧ g.head? = some k)
    (h3 : ∀ g ∈ c.current_group_phase, ∃ k lt, g = [k] ∧ (k, lt) ∈ c.lights)
    (h4 : ∀ k lt, (k, lt) ∈ c.lights →
      lt.state = LightState.RED ∧ lt.timer = 0) :
    (((c.add_light d t p).lights.map Prod.fst).Nodup) ∧
    (∀ k lt, (k, lt) ∈ (c.add_light d t p).lights →
      ∃ g, g ∈ (c.add_light d t p).current_group_phase ∧ g.head? = some k) ∧
    (∀ g ∈ (c.add_light d t p).current_group_phase,
      ∃ k lt, g = [k] ∧ (k, lt) ∈ (c.add_light d t p).lights) ∧
    (∀ k lt, (k, lt) ∈ (c.add_light d t p).lights →
      lt.state = LightState.RED ∧ lt.timer = 0) := by
  refine ⟨dictInsert_nodup h1, ?_, ?_, ?_⟩
  · intro k lt hm
    rcases dictInsert_mem hm with hm1 | hm1
    · obtain ⟨g, hg, hh⟩ := h2 k lt hm1
      exact ⟨g, List.mem_append_left _ hg, hh⟩
    · refine ⟨[(d, t)], List.mem_append_right _ (by simp), ?_⟩
      rw [hm1.1]
      rfl
  · intro g hg
    rcases List.mem_append.mp hg with hg1 | hg1
    · obtain ⟨k, lt, rfl, hmem⟩ := h3 g hg1
      have hk : k ∈ (dictInsert c.lights (d, t) (TrafficLight.init p)).map
          Prod.fst :=
        dictInsert_keys_super (List.mem_map.mpr ⟨(k, lt), hmem, rfl⟩)
      obtain ⟨v, hv⟩ := mem_keys_exists hk
      exact ⟨k, v, rfl, hv⟩
    · obtain rfl : g = [(d, t)] := by simpa using hg1
      obtain ⟨v, hv⟩ := mem_keys_exists (dictInsert_key_mem c.lights (d, t)
        (TrafficLight.init p))
      exact ⟨(d, t), v, rfl, hv⟩
  · intro k lt hm
    rcases dictInsert_mem hm with hm1 | hm1
    · exact h4 k lt hm1
    · rw [hm1.2]
      exact ⟨rfl, hp⟩

lemma foldl_add_light_props (ls : List (String × String × Int × Int)) :
    ∀ c : IntersectionController,
      (c.lights.map Prod.fst).Nodup →
      (∀ k lt, (k, lt) ∈ c.lights →
        ∃ g, g ∈ c.current_group_phase ∧ g.head? = some k) →
      (∀ g ∈ c.current_group_phase, ∃ k lt, g = [k] ∧ (k, lt) ∈ c.lights) →
      (∀ k lt, (k, lt) ∈ c.lights →
        lt.state = LightState.RED ∧ lt.timer = 0) →
      (((ls.foldl
          (fun c x => c.add_light x.1 x.2.1 (SignalPhase.init x.2.2.1 x.2.2.2))
          c).lights.map Prod.fst).Nodup) ∧
      (∀ k lt, (k, lt) ∈ (ls.foldl
          (fun c x => c.add_light x.1 x.2.1 (SignalPhase.init x.2.2.1 x.2.2.2))
          c).lights →
        ∃ g, g ∈ (ls.foldl
          (fun c x => c.add_light x.1 x.2.1 (SignalPhase.init x.2.2.1 x.2.2.2))
          c).current_group_phase ∧ g.head? = some k) ∧
      (∀ g ∈ (ls.foldl
          (fun c x => c.add_light x.1 x.2.1 (SignalPhase.init x.2.2.1 x.2.2.2))
          c).current_group_phase,
        ∃ k lt, g = [k] ∧ (k, lt) ∈ (ls.foldl
          (fun c x => c.add_light x.1 x.2.1 (SignalPhase.init x.2.2.1 x.2.2.2))
          c).lights) ∧
      (∀ k lt, (k, lt) ∈ (ls.foldl
          (fun c x => c.add_light x.1 x.2.1 (SignalPhase.init x.2.2.1 x.2.2.2))
          c).lights →
        lt.state = LightState.RED ∧ lt.timer = 0) := by
  induction ls with
  | nil => intro c h1 h2 h3 h4; exact ⟨h1, h2, h3, h4⟩
  | cons x xs ih =>
      intro c h1 h2 h3 h4
      obtain ⟨g1, g2, g3, g4⟩ :=
        add_light_preserves x.1 x.2.1 (p := SignalPhase.init x.2.2.1 x.2.2.2)
          rfl h1 h2 h3 h4
      exact ih _ g1 g2 g3 g4

/-- The invariant holds for every controller produced by the public
configuration path. -/
lemma inv_buildController (a : Int) (ls : List (String × String × Int × Int)) :
    CtrlInv (buildController a ls) := by
  obtain ⟨h1, h2, h3, h4⟩ := foldl_add_light_props ls
    (IntersectionController.init a) (by simp [IntersectionController.init])
    (by simp [IntersectionController.init]) (by simp [IntersectionController.init])
    (by simp [IntersectionController.init])
  constructor
  · exact h1
  · intro k lt hm
    obtain ⟨g, hg, hh⟩ := h2 k lt hm
    exact ⟨g, mem_sortGroupsDesc.mpr hg, hh⟩
  · intro g hg
    exact h3 g (mem_sortGroupsDesc.mp hg)
  · intro k lt g hm _ _
    exact h4 k lt hm

lemma allReady_true_all_red {ls2 : List (LaneKey × TrafficLight)}
    {groups : List (List LaneKey)} (hn : (ls2.map Prod.fst).Nodup)
    (hcov : ∀ k lt, (k, lt) ∈ ls2 → ∃ g, g ∈ groups ∧ g.head? = some k)
    (har : allReady ls2 groups = some true) :
    ∀ k lt, (k, lt) ∈ ls2 → lt.state = LightState.RED ∧ lt.timer = 0 := by
  intro k lt hm
  obtain ⟨g, hg, hh⟩ := hcov k lt hm
  obtain ⟨k1, lt1, hh1, hd1, hred⟩ := allReady_eq_true har g hg
  have hk : k1 = k := by
    rw [hh] at hh1
    exact (Option.some.inj hh1).symm
  rw [hk] at hd1
  have hgot : dictGet ls2 k = some lt := dictGet_of_mem hn hm
  rw [hd1] at hgot
  obtain rfl : lt1 = lt := Option.some.inj hgot
  exact hred

/-- `update` preserves the reachable-state invariant. -/
lemma inv_update {c c2 : IntersectionController} (inv : CtrlInv c)
    (h : c.update = some c2) : CtrlInv c2 := by
  by_cases hg : c.time_in_all_red > 1
  · have hstep : c.update
        = some { c with time_in_all_red := c.time_in_all_red - 1 } := by
      simp [IntersectionController.update, hg]
    rw [hstep] at h
    obtain rfl := Option.some.inj h
    exact ⟨inv.nodupKeys, inv.coverage, inv.singletons, inv.inactiveRed⟩
  · obtain ⟨ls2, hd, hbr⟩ := update_shape hg h
    have keys2 : ls2.map Prod.fst = c.lights.map Prod.fst := dispatch_keys hd
    have hn2 : (ls2.map Prod.fst).Nodup := by
      rw [keys2]
      exact inv.nodupKeys
    have hcov2 : ∀ k lt, (k, lt) ∈ ls2 →
        ∃ g, g ∈ c.current_group_phase ∧ g.head? = some k := by
      intro k lt hm
      obtain ⟨lt0, active, hmem, _, _⟩ := dispatch_mem hd hm
      exact inv.coverage k lt0 hmem
    have hsing2 : ∀ g ∈ c.current_group_phase,
        ∃ k lt, g = [k] ∧ (k, lt) ∈ ls2 := by
      intro g hgmem
      obtain ⟨k, lt, rfl, hmem⟩ := inv.singletons _ hgmem
      have hk : k ∈ ls2.map Prod.fst := by
        rw [keys2]
        exact List.mem_map.mpr ⟨(k, lt), hmem, rfl⟩
      obtain ⟨v, hv⟩ := mem_keys_exists hk
      exact ⟨k, v, rfl, hv⟩
    rcases hbr with ⟨har, hlen, rfl⟩ | ⟨har, rfl⟩
    · have hall := allReady_true_all_red hn2 hcov2 har
      exact ⟨hn2, hcov2, hsing2, fun k lt g hm _ _ => hall k lt hm⟩
    · refine ⟨hn2, hcov2, hsing2, ?_⟩
      intro k lt g hm hget hnot
      have hm2 : (k, lt) ∈ ls2 := hm
      have hget2 : c.current_group_phase.get? c.current_group = some g := hget
      obtain ⟨lt0, active, hmem, hgetact, he⟩ := dispatch_mem hd hm2
      obtain rfl : active = g := Option.some.inj (hgetact.symm.trans hget2)
      rw [if_neg hnot] at he
      obtain ⟨hr, ht⟩ := inv.inactiveRed k lt0 active hmem hget2 hnot
      rw [he, forceRed_of_red hr]
      exact ⟨hr, ht⟩

lemma updateIter_succ_none {c : IntersectionController} (n : Nat)
    (hu : c.update = none) : updateIter (n + 1) c = none := by
  simp [updateIter, hu]

lemma updateIter_succ_some {c c1 : IntersectionController} (n : Nat)
    (hu : c.update = some c1) : updateIter (n + 1) c = updateIter n c1 := by
  simp [updateIter, hu]

lemma inv_updateIter : ∀ (n : Nat) {c c2 : IntersectionController},
    CtrlInv c → updateIter n c = some c2 → CtrlInv c2 := by
  intro n
  induction n with
  | zero =>
      intro c c2 inv h
      obtain rfl := Option.some.inj h
      exact inv
  | succ n ih =>
      intro c c2 inv h
      cases hu : c.update with
      | none => rw [updateIter_succ_none n hu] at h; exact absurd h (by simp)
      | some c1 =>
          rw [updateIter_succ_some n hu] at h
          exact ih (inv_update inv hu) h

/-- Whenever `update` changes the active group index, every registered light
of the new state is RED with timer 0. -/
lemma advance_all_red {c c2 : IntersectionController} (inv : CtrlInv c)
    (h : c.update = some c2) (hcg : c2.current_group ≠ c.current_group) :
    ∀ k lt, (k, lt) ∈ c2.lights →
      lt.state = LightState.RED ∧ lt.timer = 0 := by
  by_cases hg : c.time_in_all_red > 1
  · have hstep : c.update
        = some { c with time_in_all_red := c.time_in_all_red - 1 } := by
      simp [IntersectionController.update, hg]
    rw [hstep] at h
    obtain rfl := Option.some.inj h
    exact absurd rfl hcg
  · obtain ⟨ls2, hd, hbr⟩ := update_shape hg h
    have keys2 : ls2.map Prod.fst = c.lights.map Prod.fst := dispatch_keys hd
    have hn2 : (ls2.map Prod.fst).Nodup := by
      rw [keys2]
      exact inv.nodupKeys
    have hcov2 : ∀ k lt, (k, lt) ∈ ls2 →
        ∃ g, g ∈ c.current_group_phase ∧ g.head? = some k := by
      intro k lt hm
      obtain ⟨lt0, active, hmem, _, _⟩ := dispatch_mem hd hm
      exact inv.coverage k lt0 hmem
    rcases hbr with ⟨har, hlen, rfl⟩ | ⟨har, rfl⟩
    · intro k lt hm
      exact allReady_true_all_red hn2 hcov2 har k lt hm
    · exact absurd rfl hcg

lemma activeGroupReady_iff {lights : List (LaneKey × TrafficLight)}
    {g : List LaneKey} :
    activeGroupReady lights g = true ↔
      ∀ k ∈ g, ∃ lt, dictGet lights k = some lt ∧
        lt.state = LightState.RED ∧ lt.timer = 0 := by
  simp only [activeGroupReady, List.all_eq_true]
  constructor
  · intro hall k hk
    have hthis := hall k hk
    cases hdg : dictGet lights k with
    | none => rw [hdg] at hthis; exact absurd hthis (by simp)
    | some lt =>
        rw [hdg] at hthis
        exact ⟨lt, rfl, by simpa using hthis⟩
  · intro hex k hk
    obtain ⟨lt, hdg, hred⟩ := hex k hk
    rw [hdg]
    simpa using hred

/-! ### Claims about the controller's reachable states -/

/-- C2: in every state reachable through the public configuration path and
any number of `update` calls, a lane showing GREEN or YELLOW belongs to the
currently active PhaseGroup — hence every lane outside the active group is
RED, and at most one group (the active one) can show non-RED lanes. -/
theorem mutual_exclusion (a : Int) (ls : List (String × String × Int × Int))
    (n : Nat) (c2 : IntersectionController) (k : LaneKey) (lt : TrafficLight)
    (g : List LaneKey)
    (h : updateIter n (buildController a ls) = some c2)
    (hm : (k, lt) ∈ c2.lights)
    (hg : c2.current_group_phase.get? c2.current_group = some g)
    (hs : lt.state = LightState.GREEN ∨ lt.state = LightState.YELLOW) :
    k ∈ g := by
  have inv := inv_updateIter n (inv_buildController a ls) h
  by_contra hk
  obtain ⟨hr, _⟩ := inv.inactiveRed k lt g hm hg hk
  rcases hs with hs | hs <;> rw [hs] at hr <;> exact LightState.noConfusion hr

/-- C2 witness: one lane, phase (3, 2), one tick — the GREEN lane is in the
active group. -/
theorem mutual_exclusion_witness : ("NS", "through") ∈ [("NS", "through")] :=
  mutual_exclusion 4 [("NS", "through", 3, 2)] 1
    { all_red_time := 4, time_in_all_red := 0, timer := 0,
      lights := [(("NS", "through"),
        { signal_phase := { green_time := 3, yellow_time := 2, red_time := 0 },
          state := LightState.GREEN, timer := 3 })],
      current_group := 0, current_group_phase := [[("NS", "through")]] }
    ("NS", "through")
    { signal_phase := { green_time := 3, yellow_time := 2, red_time := 0 },
      state := LightState.GREEN, timer := 3 }
    [("NS", "through")]
    (by decide) (by decide) (by decide) (Or.inl (by decide))

/-- C10: for a controller built by `add_light` calls with pairwise-distinct
LaneKeys followed by `sort_lights`, after any number of `update` calls every
light outside the currently active PhaseGroup is RED with timer exactly 0;
and at every instant the active group index changes, all registered lights
are RED with timer 0 (so the code's first-key-of-every-group completion
check coincides with an active-group check for these single-lane groups). -/
theorem inactive_lights_red_zero
    (a : Int) (ls : List (String × String × Int × Int))
    (n : Nat) (c2 : IntersectionController) (k : LaneKey) (lt : TrafficLight)
    (g : List LaneKey) (m : Nat) (d1 d2 : IntersectionController)
    (k2 : LaneKey) (lt2 : TrafficLight)
    (hdist : (ls.map fun x => (x.1, x.2.1)).Nodup)
    (h : updateIter n (buildController a ls) = some c2)
    (hm : (k, lt) ∈ c2.lights)
    (hg : c2.current_group_phase.get? c2.current_group = some g)
    (hk : k ∉ g)
    (h2 : updateIter m (buildController a ls) = some d1)
    (h3 : d1.update = some d2)
    (h4 : d2.current_group ≠ d1.current_group)
    (hm2 : (k2, lt2) ∈ d2.lights) :
    (lt.state = LightState.RED ∧ lt.timer = 0) ∧
    (lt2.state = LightState.RED ∧ lt2.timer = 0) := by
  refine ⟨(inv_updateIter n (inv_buildController a ls) h).inactiveRed
    k lt g hm hg hk, ?_⟩
  exact advance_all_red (inv_updateIter m (inv_buildController a ls) h2)
    h3 h4 k2 lt2 hm2

/-- C10 witness: two zero-duration lanes; after one tick the inactive EW
lane is RED with timer 0, and on the third tick (when the active group
index changes 0 → 1) all lights are RED with timer 0. -/
theorem inactive_lights_red_zero_witness :
    (LightState.RED = LightState.RED ∧ (0 : Int) = 0) ∧
    (LightState.RED = LightState.RED ∧ (0 : Int) = 0) :=
  inactive_lights_red_zero 4
    [("NS", "through", 0, 0), ("EW", "through", 0, 0)] 1
    { all_red_time := 4, time_in_all_red := 0, timer := 0,
      lights := [(("NS", "through"),
        { signal_phase := { green_time := 0, yellow_time := 0, red_time := 0 },
          state := LightState.GREEN, timer := 0 }),
        (("EW", "through"),
        { signal_phase := { green_time := 0, yellow_time := 0, red_time := 0 },
          state := LightState.RED, timer := 0 })],
      current_group := 0,
      current_group_phase := [[("NS", "through")], [("EW", "through")]] }
    ("EW", "through")
    { signal_phase := { green_time := 0, yellow_time := 0, red_time := 0 },
      state := LightState.RED, timer := 0 }
    [("NS", "through")]
    2
    { all_red_time := 4, time_in_all_red := 0, timer := 0,
      lights := [(("NS", "through"),
        { signal_phase := { green_time := 0, yellow_time := 0, red_time := 0 },
          state := LightState.YELLOW, timer := 0 }),
        (("EW", "through"),
        { signal_phase := { green_time := 0, yellow_time := 0, red_time := 0 },
          state := LightState.RED, timer := 0 })],
      current_group := 0,
      current_group_phase := [[("NS", "through")], [("EW", "through")]] }
    { all_red_time := 4, time_in_all_red := 4, timer := 0,
      lights := [(("NS", "through"),
        { signal_phase := { green_time := 0, yellow_time := 0, red_time := 0 },
          state := LightState.RED, timer := 0 }),
        (("EW", "through"),
        { signal_phase := { green_time := 0, yellow_time := 0, red_time := 0 },
          state := LightState.RED, timer := 0 })],
      current_group := 1,
      current_group_phase := [[("NS", "through")], [("EW", "through")]] }
    ("NS", "through")
    { signal_phase := { green_time := 0, yellow_time := 0, red_time := 0 },
      state := LightState.RED, timer := 0 }
    (by decide) (by decide) (by decide) (by decide) (by decide)
    (by decide) (by decide) (by decide) (by decide)

/-- C4: on every reachable, non-clearance-gated tick, the controller
advances the active group index (mod the group count) and arms the
clearance counter exactly when every LaneKey of the currently active
PhaseGroup — addressed by its full composite key — is RED with timer exactly
0 after dispatch; otherwise both fields are unchanged. -/
theorem completion_check
    (a : Int) (ls : List (String × String × Int × Int)) (n : Nat)
    (c : IntersectionController) (ls2 : List (LaneKey × TrafficLight))
    (g : List LaneKey) (c2 : IntersectionController)
    (h : updateIter n (buildController a ls) = some c)
    (hng : ¬ c.time_in_all_red > 1)
    (hd : dispatch c.current_group_phase c.current_group c.lights = some ls2)
    (hg : c.current_group_phase.get? c.current_group = some g)
    (hu : c.update = some c2) :
    (activeGroupReady ls2 g = true →
      c2.current_group = (c.current_group + 1) % c.current_group_phase.length ∧
      c2.time_in_all_red = c.all_red_time) ∧
    (activeGroupReady ls2 g = false →
      c2.current_group = c.current_group ∧
      c2.time_in_all_red = c.time_in_all_red) := by
  have inv := inv_updateIter n (inv_buildController a ls) h
  obtain ⟨ls2x, hdx, hbr⟩ := update_shape hng hu
  obtain rfl : ls2x = ls2 := Option.some.inj (hdx.symm.trans hd)
  rcases hbr with ⟨har, hlen, rfl⟩ | ⟨har, rfl⟩
  · refine ⟨fun _ => ⟨rfl, rfl⟩, fun hfalse => ?_⟩
    exfalso
    have htrue : activeGroupReady ls2x g = true := by
      obtain ⟨k0, lt0, rfl, hmem0⟩ := inv.singletons g (List.get?_mem hg)
      obtain ⟨k1, lt1, hh1, hd1, hred⟩ :=
        allReady_eq_true har _ (List.get?_mem hg)
      have hk1 : k0 = k1 := by simpa using hh1
      refine activeGroupReady_iff.mpr ?_
      intro k hkmem
      obtain rfl : k = k0 := by simpa using hkmem
      rw [hk1]
      exact ⟨lt1, hd1, hred⟩
    rw [htrue] at hfalse
    exact Bool.noConfusion hfalse
  · refine ⟨fun htrue => ?_, fun _ => ⟨rfl, rfl⟩⟩
    exfalso
    obtain ⟨g2, hg2, k1, lt1, hh1, hd1, hnred⟩ := allReady_eq_false har
    obtain ⟨k2, ltk2, rfl, hmemk2⟩ := inv.singletons g2 hg2
    obtain rfl : k2 = k1 := by simpa using hh1
    by_cases hmem : k2 ∈ g
    · obtain ⟨lt, hdl, hred⟩ := activeGroupReady_iff.mp htrue k2 hmem
      rw [hd1] at hdl
      obtain rfl : lt1 = lt := Option.some.inj hdl
      exact hnred hred
    · have hmls2 : (k2, lt1) ∈ ls2x := dictGet_some_mem hd1
      obtain ⟨lt0, active, hmem0, hgetact, he⟩ := dispatch_mem hdx hmls2
      obtain rfl : active = g := Option.some.inj (hgetact.symm.trans hg)
      rw [if_neg hmem] at he
      obtain ⟨hr, ht⟩ := inv.inactiveRed k2 lt0 active hmem0 hg hmem
      rw [he, forceRed_of_red hr] at hnred
      exact hnred ⟨hr, ht⟩

/-- C4 witness: one zero-duration lane completing on the third tick — the
active group is RED with timer 0 after dispatch, the group index advances
(mod 1) and the clearance counter is armed at 4. -/
theorem completion_check_witness :
    (0 : Nat) = (0 + 1) % 1 ∧ (4 : Int) = 4 :=
  (completion_check 4 [("NS", "through", 0, 0)] 2
    { all_red_time := 4, time_in_all_red := 0, timer := 0,
      lights := [(("NS", "through"),
        { signal_phase := { green_time := 0, yellow_time := 0, red_time := 0 },
          state := LightState.YELLOW, timer := 0 })],
      current_group := 0, current_group_phase := [[("NS", "through")]] }
    [(("NS", "through"),
      { signal_phase := { green_time := 0, yellow_time := 0, red_time := 0 },
        state := LightState.RED, timer := 0 })]
    [("NS", "through")]
    { all_red_time := 4, time_in_all_red := 4, timer := 0,
      lights := [(("NS", "through"),
        { signal_phase := { green_time := 0, yellow_time := 0, red_time := 0 },
          state := LightState.RED, timer := 0 })],
      current_group := 0, current_group_phase := [[("NS", "through")]] }
    (by decide) (by decide) (by decide) (by decide) (by decide)).1 (by decide)
